import Mathlib

/-!
Verification of the CURASENSE cross-check enrichment pipeline
(`apps/api/services/crosscheck.py` and `apps/api/services/dbpedia_service.py`)
against its specification.

Shallow embedding conventions:
* Python `float` arithmetic is modelled by exact rationals (`ℚ`); `round(x, 3)`
  is modelled by `round3` (round half towards the larger value).  The claims
  under scrutiny never hit an exact half-thousandth, where Python's
  round-half-to-even could differ.
* Python strings are Lean `String`s; `str.lower` / `str.strip` / substring `in`
  are modelled character-wise (`pyLower`, `pyStrip`, `strIn`).
* `asyncio.gather(..., return_exceptions=True)` preserves the order of its
  argument list and turns each coroutine's exception into that slot's result,
  cancelling nothing; the fan-out / pointer-based map-back of
  `analyze_async` is therefore embedded index-wise (`db_result`), with the
  remote lookup given as a deterministic oracle `String → Except Unit LookupResult`.
* The filesystem cache of `DBPediaService` is a map from paths to file
  contents; an unreadable / unparsable file is `CacheFile.corrupt`.  SHA-1
  hashing of the cache key (`_cache_path`) is modelled by an injective
  stand-in (`cache_path`); wall-clock time is an explicit `ℚ` parameter.
-/

/-! ### Python string primitives -/

/-- Python `str.lower()` (character-wise; the claims only use ASCII). -/
def pyLower (s : String) : String := ⟨s.data.map Char.toLower⟩

/-- Python `str.strip()`: drop leading and trailing whitespace. -/
def pyStrip (s : String) : String :=
  ⟨((s.data.dropWhile Char.isWhitespace).reverse.dropWhile Char.isWhitespace).reverse⟩

/-- Substring test on character lists: does `needle` occur contiguously in
`haystack`?  Models Python `needle in haystack` for strings. -/
def listContains (haystack needle : List Char) : Bool :=
  match haystack with
  | [] => needle.isEmpty
  | _ :: t => needle.isPrefixOf haystack || listContains t needle

/-- Python `needle in haystack` for strings. -/
def strIn (needle haystack : String) : Bool :=
  listContains haystack.data needle.data

/-- Split a character list at every whitespace character (keeping empty
chunks, as `List.splitOnP` would). -/
def splitChars (cs : List Char) : List (List Char) :=
  match cs with
  | [] => [[]]
  | c :: rest =>
    let r := splitChars rest
    if c.isWhitespace then [] :: r
    else (c :: r.headI) :: r.tail

/-- Python `str.split()` with no separator.  Python drops empty words between
adjacent separators; this model keeps them, which is observationally equal
here because the only consumer filters on `len(word) > 3`. -/
def pySplit (s : String) : List String := (splitChars s.data).map (fun w => ⟨w⟩)

/-! ### Rounding

`round(x, 3)` from `CrossChecker._risk_score` and the `final_score` field.
Modelled as round half up; Python rounds binary floats half to even, and the
two agree away from exact half-thousandths, which the claims never hit. -/

/-- Python `round(x, 3)`: round to a multiple of `1/1000`. -/
def round3 (x : ℚ) : ℚ := (⌊x * 1000 + 1/2⌋ : ℚ) / 1000

/-! ### Data model -/

/-- One ranked candidate as produced by `SymptomNLP.rank` (a dict in the
source; absent `final_score` defaults to `0.0` and absent `rationale` to `""`,
folded into the fields). -/
structure Candidate where
  name : String
  final_score : ℚ
  similarity_score : Option ℚ := none
  zero_shot_score : Option ℚ := none
  rationale : String := ""
deriving Repr, DecidableEq

/-- A follow-up question entry of a KB record (`{"text": ...}`; an absent
`text` key defaults to `""`). -/
structure Question where
  text : String
deriving Repr, DecidableEq

/-- A knowledge-base condition record (defaults fold the `.get(..., default)`
calls of the source). -/
structure ConditionRec where
  name : String
  aliases : List String := []
  common_symptoms : List String := []
  follow_up_questions : List Question := []
  severity_score : ℚ := 1/2
  urgency : String := "routine"
deriving Repr, DecidableEq

/-- Result of `DBPediaService.lookup_abstract`: the dicts
`{"matched": false}` and `{"matched": true, "resource": ..., "abstract": ...,
"labels": [...]}` (absent keys are `none`; the fallback query's `resource`
may itself be a JSON `null`, hence `Option String`). -/
structure LookupResult where
  matched : Bool
  resource : Option String := none
  abstract : Option String := none
  labels : Option (List String) := none
deriving Repr, DecidableEq

/-! ### `CrossChecker` (crosscheck.py) -/

/-- The `CrossChecker` state: `kb_by_key` is the dict built in `__init__`
from names and aliases (lower-cased, stripped), `dbpedia` is the
`DBPediaService` handle — modelled as the deterministic outcome of
`lookup_abstract` per condition name, `Except.error` standing for a raised
exception — or `none` when disabled. -/
structure CrossChecker where
  kb_by_key : String → Option ConditionRec
  top_k : Nat := 10
  top_m : Nat := 2
  dbpedia : Option (String → Except Unit LookupResult) := none
  dbpedia_min_score : ℚ := 6/10

/-- `CrossChecker._contains_token`: empty tokens are never "contained";
otherwise lower-cased substring test against the (already normalized)
haystack. -/
def contains_token (haystack token : String) : Bool :=
  if token = "" then false else strIn (pyLower token) haystack

/-- `CrossChecker._missing_symptoms`: the common symptoms of `condition` not
contained (per `_contains_token`) in the lower-cased user text. -/
def missing_symptoms (user_text : String) (condition : ConditionRec) : List String :=
  condition.common_symptoms.filter (fun s => !(contains_token (pyLower user_text) s))

/-- The inner `any(...)` of `CrossChecker._pick_followup`: does some
whitespace-separated word of `m.lower()` longer than 3 characters occur in
`q.text.lower()`? -/
def symptom_matches (m : String) (q : Question) : Bool :=
  (pySplit (pyLower m)).any (fun w => decide (3 < w.length) && strIn w (pyLower q.text))

/-- `CrossChecker._pick_followup`: no questions ⇒ `none`; no missing
symptoms ⇒ first question; otherwise the double loop `for m in missing: for
q in questions: if any(...): return q`, with the first question as final
fallback. -/
def pick_followup (missing : List String) (condition : ConditionRec) : Option Question :=
  match condition.follow_up_questions with
  | [] => none
  | q0 :: _ =>
    if missing.isEmpty then some q0
    else
      match missing.findSome?
          (fun m => condition.follow_up_questions.find? (fun q => symptom_matches m q)) with
      | some q => some q
      | none => some q0

/-- `CrossChecker._risk_score`. -/
def risk_score (final_score severity_score : ℚ) (age : ℤ)
    (chronic_conditions : List String) : ℚ :=
  let chronic_factor : ℚ := if chronic_conditions.isEmpty then 1 else 12/10
  let age_factor : ℚ := 1 + max 0 (((age : ℚ) - 50) / 200)
  let base : ℚ := final_score * (6/10) + severity_score * (4/10)
  round3 (min 1 (base * chronic_factor * age_factor))

/-- `CrossChecker._lookup_kb_by_nlp_name`: empty names resolve to nothing;
otherwise look up the stripped, lower-cased name in `kb_by_key`. -/
def lookup_kb (cc : CrossChecker) (nlp_name : String) : Option ConditionRec :=
  if nlp_name = "" then none else cc.kb_by_key (pyLower (pyStrip nlp_name))

/-- The enrichment-selection step of `analyze_async` (first loop, lines
98–107): a candidate at position `idx` of the truncated list gets a DBpedia
task iff the service is present, `idx < top_m` and
`final_score >= dbpedia_min_score`; the looked-up name is the KB record's
canonical `name` when the candidate resolves, the candidate's own name
otherwise.  `none` is the `db_tasks.append(None)` placeholder. -/
def db_request_name (cc : CrossChecker) (idx : Nat) (item : Candidate) : Option String :=
  if cc.dbpedia.isSome ∧ idx < cc.top_m ∧ cc.dbpedia_min_score ≤ item.final_score then
    some (match lookup_kb cc item.name with
          | some kb_item => kb_item.name
          | none => item.name)
  else none

/-- The gather / map-back step of `analyze_async` (lines 109–128) for one
index: unselected slots stay `None`; a selected slot holds its coroutine's
result, an exception degrading to `{"matched": False}`. -/
def db_result (cc : CrossChecker) (idx : Nat) (item : Candidate) : Option LookupResult :=
  match cc.dbpedia, db_request_name cc idx item with
  | some lookup, some nm =>
    match lookup nm with
    | Except.ok r => some r
    | Except.error _ => some { matched := false }
  | _, _ => none

/-- The final enriched record appended by `analyze_async` (lines 153–164). -/
structure Enriched where
  name : String
  final_score : ℚ
  similarity_score : Option ℚ
  zero_shot_score : Option ℚ
  rationale : String
  kb : Option ConditionRec
  missing_symptoms : List String
  follow_up_question : Option Question
  risk_score : ℚ
  dbpedia : Option LookupResult
deriving Repr, DecidableEq

/-- The merge step of `analyze_async` (lines 131–164) for one candidate at
position `idx` of the truncated list. -/
def enrich_candidate (cc : CrossChecker) (user_text : String) (age : ℤ)
    (chronic_conditions : List String) (idx : Nat) (item : Candidate) : Enriched :=
  let kb_item := lookup_kb cc item.name
  let missing := match kb_item with
    | some c => missing_symptoms user_text c
    | none => []
  let followup := match kb_item with
    | some c => pick_followup missing c
    | none => none
  let severity : ℚ := match kb_item with
    | some c => c.severity_score
    | none => 1/2
  { name := item.name
    final_score := round3 item.final_score
    similarity_score := item.similarity_score
    zero_shot_score := item.zero_shot_score
    rationale := item.rationale
    kb := kb_item
    missing_symptoms := missing
    follow_up_question := followup
    risk_score := risk_score item.final_score severity age chronic_conditions
    dbpedia := db_result cc idx item }

/-- `CrossChecker.analyze_async`, given the ranker's output `ranked`
(`self.nlp.rank(user_text)` is an external collaborator): truncate to
`top_k`, then produce one enriched record per truncated candidate, in
order. -/
def analyze_async (cc : CrossChecker) (user_text : String) (age : ℤ)
    (chronic_conditions : List String) (ranked : List Candidate) : List Enriched :=
  (ranked.take cc.top_k).enum.map
    (fun p => enrich_candidate cc user_text age chronic_conditions p.1 p.2)

/-- Number of DBpedia tasks actually dispatched for one request (the
non-`None` entries of `db_tasks`). -/
def db_dispatched (cc : CrossChecker) (ranked : List Candidate) : Nat :=
  (ranked.take cc.top_k).enum.countP (fun p => (db_request_name cc p.1 p.2).isSome)

/-! ### `DBPediaService` (dbpedia_service.py) -/

/-- One cache file's content: `corrupt` models a file whose `json.load`
raises (the `except` branch of `_read_cache`); `entry` models a parsed JSON
object — a missing `_fetched_at` key defaults to `0` before the model, and a
missing or `null` `payload` key is `payload = none`. -/
inductive CacheFile
  | corrupt
  | entry (fetched_at : ℚ) (payload : Option LookupResult)
deriving Repr, DecidableEq

/-- The on-disk cache directory: a partial map from file paths to contents. -/
def FS : Type := String → Option CacheFile

/-- `DBPediaService._cache_path`: SHA-1 hex digest of the key, modelled by an
injective stand-in (the digest is deterministic; hash collisions are out of
scope). -/
def cache_path (key : String) : String := "sha1-" ++ key

/-- `DBPediaService` configuration observed by the claims (the endpoint URL
and HTTP timeout are not). -/
structure DBPediaSvc where
  cache_ttl : ℚ
deriving Repr, DecidableEq

/-- `DBPediaService._read_cache` at wall-clock time `now`: `None` when the
file is absent, unparsable, or `now - fetched_at > cache_ttl`; otherwise the
stored payload.  Total — every exception path of the source returns `None`. -/
def read_cache (svc : DBPediaSvc) (fs : FS) (now : ℚ) (key : String) : Option LookupResult :=
  match fs (cache_path key) with
  | none => none
  | some CacheFile.corrupt => none
  | some (CacheFile.entry fetched_at payload) =>
    if svc.cache_ttl < now - fetched_at then none else payload

/-- `DBPediaService._write_cache` at wall-clock time `now` (the lock-guarded
write; the silently-dropped-write branch of its `except` is the degraded mode
of spec §7(d) and is not modelled — writes succeed here). -/
def write_cache (fs : FS) (now : ℚ) (key : String) (payload : LookupResult) : FS :=
  fun p => if p = cache_path key then some (CacheFile.entry now (some payload)) else fs p

/-- The two SPARQL queries `lookup_abstract` can issue, identified by the
name-derived data interpolated into the query text: the direct query embeds
the resource URI, the fallback embeds the lower-cased quote-stripped label.
(URL percent-encoding of the query string is transport detail, not
modelled.) -/
inductive Query
  | direct (resource : String)
  | labelSearch (label : String)
deriving Repr, DecidableEq

/-- One SPARQL result binding (`b.get("s"/"abstract"/"label")`, each possibly
absent). -/
structure Binding where
  s : Option String := none
  abstract : Option String := none
  label : Option String := none
deriving Repr, DecidableEq

/-- Deterministic model of `DBPediaService._sparql`: `none` is its `except`
branch (network error, timeout, non-2xx via `raise_for_status`, JSON parse
failure) — also standing for a falsy response dict; `some bs` is the parsed
`results.bindings` list. -/
def SparqlOracle : Type := Query → Option (List Binding)

/-- The resource URI of the direct query:
`"http://dbpedia.org/resource/" + quote(name.replace(" ", "_"))` (percent
quoting of the remaining characters not modelled). -/
def direct_resource (condition_name : String) : String :=
  "http://dbpedia.org/resource/" ++ condition_name.map (fun ch => if ch = ' ' then '_' else ch)

/-- `safe_label.lower()` of the fallback query: remove double quotes, then
lower-case. -/
def safe_label_lower (condition_name : String) : String :=
  pyLower ⟨condition_name.toList.filter (fun ch => ch ≠ '"')⟩

/-- The cache key of `lookup_abstract`: `f"abstract:{name.strip().lower()}"`. -/
def lookup_key (condition_name : String) : String :=
  "abstract:" ++ pyLower (pyStrip condition_name)

/-- Outcome of one `lookup_abstract` call: its return value, the cache state
it leaves behind, and the SPARQL queries it actually issued. -/
structure LookupStep where
  result : LookupResult
  fs : FS
  remote_calls : List Query

/-- The matched result built from the first binding of the direct query
(lines 76–78): abstract defaults to `""`, label to the condition name. -/
def direct_hit (condition_name : String) (b : Binding) : LookupResult :=
  { matched := true
    resource := some (direct_resource condition_name)
    abstract := some (b.abstract.getD "")
    labels := some [b.label.getD condition_name] }

/-- The matched result built from the first binding of the fallback query
(lines 98–101): the resource is the binding's `?s` (possibly absent). -/
def label_hit (condition_name : String) (b : Binding) : LookupResult :=
  { matched := true
    resource := b.s
    abstract := some (b.abstract.getD "")
    labels := some [b.label.getD condition_name] }

/-- `DBPediaService.lookup_abstract` at wall-clock time `now`: falsy name ⇒
`{"matched": False}` (no cache access); cache hit ⇒ cached payload, no
remote call; otherwise direct query, then fallback label query, each hit
cached; both empty/failed ⇒ `{"matched": False}`, also cached. -/
def lookup_abstract (svc : DBPediaSvc) (oracle : SparqlOracle) (fs : FS) (now : ℚ)
    (condition_name : String) : LookupStep :=
  if condition_name = "" then ⟨{ matched := false }, fs, []⟩
  else
    match read_cache svc fs now (lookup_key condition_name) with
    | some cached => ⟨cached, fs, []⟩
    | none =>
      match oracle (Query.direct (direct_resource condition_name)) with
      | some (b :: _) =>
        ⟨direct_hit condition_name b,
         write_cache fs now (lookup_key condition_name) (direct_hit condition_name b),
         [Query.direct (direct_resource condition_name)]⟩
      | _ =>
        match oracle (Query.labelSearch (safe_label_lower condition_name)) with
        | some (b :: _) =>
          ⟨label_hit condition_name b,
           write_cache fs now (lookup_key condition_name) (label_hit condition_name b),
           [Query.direct (direct_resource condition_name),
            Query.labelSearch (safe_label_lower condition_name)]⟩
        | _ =>
          ⟨{ matched := false },
           write_cache fs now (lookup_key condition_name) { matched := false },
           [Query.direct (direct_resource condition_name),
            Query.labelSearch (safe_label_lower condition_name)]⟩

/-! ### Claim-side formulations (for refinement comparison)

The following two definitions transcribe the *claims'* wording, to be
compared against the embeddings of the source above. -/

/-- The missing-symptoms computation as claim C3 words it: exactly those
common symptoms that do not occur case-insensitively as a substring of the
user text. -/
def spec_missing_symptoms (user_text : String) (condition : ConditionRec) : List String :=
  condition.common_symptoms.filter (fun s => !(strIn (pyLower s) (pyLower user_text)))

/-- The follow-up selection as claim C4 words it: the first *question*, in
the record's question order, whose text matches any missing symptom; first
question as fallback. -/
def spec_pick_followup (missing : List String) (condition : ConditionRec) : Option Question :=
  match condition.follow_up_questions with
  | [] => none
  | q0 :: _ =>
    if missing.isEmpty then some q0
    else some ((condition.follow_up_questions.find?
        (fun q => missing.any (fun m => symptom_matches m q))).getD q0)

/-- The selection `_pick_followup` actually performs, in `find?` vocabulary:
locate the first *missing symptom* some question matches, then the first
question matching it. -/
def first_matching_question (missing : List String) (questions : List Question) :
    Option Question :=
  match missing.find? (fun m => questions.any (fun q => symptom_matches m q)) with
  | some m => questions.find? (fun q => symptom_matches m q)
  | none => none

/-! ### Concrete fixtures used by the witness theorems -/

/-- A two-record KB map: canonical name `influenza` (with alias `flu`) and
`common cold`. -/
def kbW : String → Option ConditionRec := fun key =>
  if key = "influenza" ∨ key = "flu" then
    some { name := "Influenza"
           aliases := ["flu"]
           common_symptoms := ["fever", "sore throat", "fatigue"]
           follow_up_questions := [⟨"Do you have a sore throat?"⟩]
           severity_score := 7/10
           urgency := "urgent" }
  else if key = "common cold" then
    some { name := "Common cold", severity_score := 2/10 }
  else none

/-- A remote-lookup handle whose call for `Influenza` raises and whose call
for `Common cold` succeeds. -/
def dbpediaW : String → Except Unit LookupResult := fun nm =>
  if nm = "Influenza" then Except.error ()
  else Except.ok { matched := true, resource := some "r", abstract := some "a", labels := some ["l"] }

/-- A `CrossChecker` over `kbW` and `dbpediaW` with the constructor's default
configuration. -/
def ccW : CrossChecker :=
  { kb_by_key := kbW, top_k := 10, top_m := 2, dbpedia := some dbpediaW, dbpedia_min_score := 6/10 }

/-- Two high-confidence candidates, the first an alias of `Influenza`. -/
def rankedW : List Candidate :=
  [{ name := "Flu", final_score := 9/10 }, { name := "Common cold", final_score := 7/10 }]

/-- A SPARQL transport in which every remote call fails. -/
def oracleFailW : SparqlOracle := fun _ => none

/-- The empty cache directory. -/
def fsEmptyW : FS := fun _ => none

/-! ### Helper lemmas -/

theorem round3_mono {x y : ℚ} (h : x ≤ y) : round3 x ≤ round3 y := by
  unfold round3
  have hf : ⌊x * 1000 + 1/2⌋ ≤ ⌊y * 1000 + 1/2⌋ := Int.floor_mono (by linarith)
  have hc : ((⌊x * 1000 + 1/2⌋ : ℤ) : ℚ) ≤ ((⌊y * 1000 + 1/2⌋ : ℤ) : ℚ) := by exact_mod_cast hf
  linarith

theorem round3_int_div (x : ℚ) (n : ℤ) (h1 : (n : ℚ) ≤ x * 1000 + 1/2)
    (h2 : x * 1000 + 1/2 < n + 1) : round3 x = (n : ℚ) / 1000 := by
  unfold round3
  rw [Int.floor_eq_iff.mpr ⟨h1, h2⟩]

theorem round3_zero : round3 0 = 0 := by
  rw [round3_int_div 0 0 (by norm_num) (by norm_num)]; norm_num

theorem round3_one : round3 1 = 1 := by
  rw [round3_int_div 1 1000 (by norm_num) (by norm_num)]; norm_num

theorem risk_score_def (f s : ℚ) (age : ℤ) (ch : List String) :
    risk_score f s age ch =
      round3 (min 1 ((f * (6/10) + s * (4/10)) * (if ch.isEmpty then 1 else 12/10)
        * (1 + max 0 (((age : ℚ) - 50) / 200)))) := rfl

theorem chronic_factor_nonneg (ch : List String) :
    (0 : ℚ) ≤ if ch.isEmpty then 1 else 12/10 := by split <;> norm_num

theorem age_factor_nonneg (age : ℤ) : (0 : ℚ) ≤ 1 + max 0 (((age : ℚ) - 50) / 200) := by
  have := le_max_left (0 : ℚ) (((age : ℚ) - 50) / 200)
  linarith

/-! ### Claim C2 — `_risk_score` -/

/-- C2: `_risk_score` computes
`round(min(1, (0.6*final + 0.4*severity) * chronicFactor * ageFactor), 3)`;
it lands in `[0,1]` on `[0,1] × [0,1]` inputs, is a multiple of `1/1000`, is
non-decreasing in `finalScore`, in `severityScore`, and in `age` (hence in
particular above 50), is unaffected by age at or below 50, and clamps the
spec scenario `(0.9, 0.7, 60, chronic)` to `1.0`. -/
theorem risk_score_spec :
    (∀ (f s : ℚ) (age : ℤ) (ch : List String),
       risk_score f s age ch =
         round3 (min 1 ((6/10 * f + 4/10 * s) * (if ch.isEmpty then 1 else 12/10)
           * (1 + max 0 (((age : ℚ) - 50) / 200))))) ∧
    (∀ (f s : ℚ) (age : ℤ) (ch : List String), 0 ≤ f → f ≤ 1 → 0 ≤ s → s ≤ 1 →
       0 ≤ risk_score f s age ch ∧ risk_score f s age ch ≤ 1) ∧
    (∀ (f s : ℚ) (age : ℤ) (ch : List String), ∃ n : ℤ, risk_score f s age ch = (n : ℚ) / 1000) ∧
    (∀ (f1 f2 s : ℚ) (age : ℤ) (ch : List String), f1 ≤ f2 →
       risk_score f1 s age ch ≤ risk_score f2 s age ch) ∧
    (∀ (f s1 s2 : ℚ) (age : ℤ) (ch : List String), s1 ≤ s2 →
       risk_score f s1 age ch ≤ risk_score f s2 age ch) ∧
    (∀ (f s : ℚ) (a1 a2 : ℤ) (ch : List String), 0 ≤ f → 0 ≤ s → a1 ≤ a2 →
       risk_score f s a1 ch ≤ risk_score f s a2 ch) ∧
    (∀ (f s : ℚ) (a1 a2 : ℤ) (ch : List String), a1 ≤ 50 → a2 ≤ 50 →
       risk_score f s a1 ch = risk_score f s a2 ch) ∧
    risk_score (9/10) (7/10) 60 ["hypertension"] = 1 := by
  refine ⟨?_, ?_, ?_, ?_, ?_, ?_, ?_, ?_⟩
  · intro f s age ch
    rw [risk_score_def]
    congr 2
    ring
  · intro f s age ch hf0 hf1 hs0 hs1
    rw [risk_score_def]
    have hcf := chronic_factor_nonneg ch
    have haf := age_factor_nonneg age
    have hb : (0 : ℚ) ≤ f * (6/10) + s * (4/10) := by
      have := mul_nonneg hf0 (by norm_num : (0:ℚ) ≤ 6/10)
      have := mul_nonneg hs0 (by norm_num : (0:ℚ) ≤ 4/10)
      linarith
    constructor
    · have hx : (0 : ℚ) ≤ min 1 ((f * (6/10) + s * (4/10))
          * (if ch.isEmpty then 1 else 12/10) * (1 + max 0 (((age : ℚ) - 50) / 200))) :=
        le_min (by norm_num) (mul_nonneg (mul_nonneg hb hcf) haf)
      calc (0 : ℚ) = round3 0 := round3_zero.symm
        _ ≤ _ := round3_mono hx
    · calc round3 _ ≤ round3 1 := round3_mono (min_le_left _ _)
        _ = 1 := round3_one
  · intro f s age ch
    exact ⟨_, rfl⟩
  · intro f1 f2 s age ch h
    rw [risk_score_def, risk_score_def]
    apply round3_mono
    apply min_le_min le_rfl
    have hcf := chronic_factor_nonneg ch
    have haf := age_factor_nonneg age
    have hb : f1 * (6/10) + s * (4/10) ≤ f2 * (6/10) + s * (4/10) := by linarith
    exact mul_le_mul_of_nonneg_right (mul_le_mul_of_nonneg_right hb hcf) haf
  · intro f s1 s2 age ch h
    rw [risk_score_def, risk_score_def]
    apply round3_mono
    apply min_le_min le_rfl
    have hcf := chronic_factor_nonneg ch
    have haf := age_factor_nonneg age
    have hb : f * (6/10) + s1 * (4/10) ≤ f * (6/10) + s2 * (4/10) := by linarith
    exact mul_le_mul_of_nonneg_right (mul_le_mul_of_nonneg_right hb hcf) haf
  · intro f s a1 a2 ch hf0 hs0 h
    rw [risk_score_def, risk_score_def]
    apply round3_mono
    apply min_le_min le_rfl
    have hcf := chronic_factor_nonneg ch
    have hb : (0 : ℚ) ≤ f * (6/10) + s * (4/10) := by
      have := mul_nonneg hf0 (by norm_num : (0:ℚ) ≤ 6/10)
      have := mul_nonneg hs0 (by norm_num : (0:ℚ) ≤ 4/10)
      linarith
    have hbc : (0 : ℚ) ≤ (f * (6/10) + s * (4/10)) * (if ch.isEmpty then 1 else 12/10) :=
      mul_nonneg hb hcf
    have haf : 1 + max 0 (((a1 : ℚ) - 50) / 200) ≤ 1 + max 0 (((a2 : ℚ) - 50) / 200) := by
      have hc : (a1 : ℚ) ≤ (a2 : ℚ) := by exact_mod_cast h
      have hd : ((a1 : ℚ) - 50) / 200 ≤ ((a2 : ℚ) - 50) / 200 := by linarith
      have := max_le_max (le_refl (0 : ℚ)) hd
      linarith
    exact mul_le_mul_of_nonneg_left haf hbc
  · intro f s a1 a2 ch h1 h2
    rw [risk_score_def, risk_score_def]
    have e1 : max (0 : ℚ) (((a1 : ℚ) - 50) / 200) = 0 := by
      apply max_eq_left
      have : (a1 : ℚ) ≤ 50 := by exact_mod_cast h1
      linarith
    have e2 : max (0 : ℚ) (((a2 : ℚ) - 50) / 200) = 0 := by
      apply max_eq_left
      have : (a2 : ℚ) ≤ 50 := by exact_mod_cast h2
      linarith
    rw [e1, e2]
  · rw [risk_score_def]
    have hif : (if (["hypertension"] : List String).isEmpty then (1:ℚ) else 12/10) = 12/10 := rfl
    rw [hif]
    have h2 : (((60 : ℤ) : ℚ) - 50) / 200 = 1/20 := by norm_num
    rw [h2, max_eq_right (by norm_num : (0:ℚ) ≤ 1/20)]
    have h3 : min (1 : ℚ) ((9/10 * (6/10) + 7/10 * (4/10)) * (12/10) * (1 + 1/20)) = 1 := by
      rw [min_eq_left]
      norm_num
    rw [h3, round3_one]

/-- Witness for C2: the risk score is monotone from `f = 1/2` to `f = 3/4`,
identical at ages 30 and 50, bounded on a concrete input, and the spec
scenario evaluates to `1`. -/
theorem risk_score_spec_witness :
    ((1:ℚ)/2 ≤ 3/4 ∧
      risk_score (1/2) (1/2) 40 [] ≤ risk_score (3/4) (1/2) 40 []) ∧
    ((30:ℤ) ≤ 50 ∧ (50:ℤ) ≤ 50 ∧
      risk_score (1/2) (1/2) 30 [] = risk_score (1/2) (1/2) 50 []) ∧
    (0 ≤ risk_score (1/2) (1/2) 60 ["c"] ∧ risk_score (1/2) (1/2) 60 ["c"] ≤ 1) ∧
    risk_score (9/10) (7/10) 60 ["hypertension"] = 1 :=
  ⟨⟨by norm_num, risk_score_spec.2.2.2.1 (1/2) (3/4) (1/2) 40 [] (by norm_num)⟩,
   ⟨by norm_num, le_refl 50,
     risk_score_spec.2.2.2.2.2.2.1 (1/2) (1/2) 30 50 [] (by norm_num) (le_refl 50)⟩,
   risk_score_spec.2.1 (1/2) (1/2) 60 ["c"] (by norm_num) (by norm_num) (by norm_num) (by norm_num),
   risk_score_spec.2.2.2.2.2.2.2⟩

/-! ### Claim C1 — `analyze_async` length and order -/

/-- C1: `analyze_async` returns exactly `min(N, top_k)` enriched records, one
per candidate of the truncated ranker list, carrying the candidates' names in
the same relative order — never re-sorted by risk score or enrichment
outcome. -/
theorem analyze_async_length_order (cc : CrossChecker) (user_text : String) (age : ℤ)
    (chronic_conditions : List String) (ranked : List Candidate) :
    (analyze_async cc user_text age chronic_conditions ranked).length
        = min ranked.length cc.top_k ∧
    (analyze_async cc user_text age chronic_conditions ranked).map Enriched.name
        = (ranked.take cc.top_k).map Candidate.name := by
  constructor
  · unfold analyze_async
    rw [List.length_map, List.enum_length, List.length_take, Nat.min_comm]
  · unfold analyze_async
    rw [List.map_map]
    have h : (Enriched.name ∘ fun p : Nat × Candidate =>
        enrich_candidate cc user_text age chronic_conditions p.1 p.2)
        = Candidate.name ∘ Prod.snd := by
      funext p
      rfl
    rw [h, ← List.map_map, List.enum_map_snd]

/-! ### Claim C3 — `_missing_symptoms` -/

/-- C3 counterexample: an empty-string common symptom trivially occurs as a
substring of any user text, yet `_missing_symptoms` reports it missing
(`_contains_token` returns `False` for an empty token), so the claim's
characterization fails on a record with an empty common symptom. -/
theorem missing_symptoms_empty_symptom_cex :
    missing_symptoms "fever and cough" { name := "X", common_symptoms := [""] } = [""] ∧
    spec_missing_symptoms "fever and cough" { name := "X", common_symptoms := [""] } = [] ∧
    missing_symptoms "fever and cough" { name := "X", common_symptoms := [""] }
      ≠ spec_missing_symptoms "fever and cough" { name := "X", common_symptoms := [""] } := by
  refine ⟨by decide, by decide, by decide⟩

/-- C3 amended: the missing-symptoms list is the subsequence (a `filter`) of
the record's common symptoms, in order, consisting of exactly those entries
that are empty *or* do not occur case-insensitively as a substring of the
user text; on the spec scenario (`"fever and cough"` against
`["fever","sore throat","fatigue"]`) it is `["sore throat","fatigue"]`. -/
theorem missing_symptoms_characterization :
    (∀ (user_text : String) (c : ConditionRec),
       missing_symptoms user_text c =
         c.common_symptoms.filter
           (fun s => s == "" || !(strIn (pyLower s) (pyLower user_text)))) ∧
    missing_symptoms "fever and cough"
        { name := "Influenza", common_symptoms := ["fever", "sore throat", "fatigue"] }
      = ["sore throat", "fatigue"] := by
  constructor
  · intro t c
    apply List.filter_congr
    intro s _
    by_cases hs : s = ""
    · simp [contains_token, hs]
    · simp [contains_token, hs]
  · decide

/-! ### Claim C4 — `_pick_followup` -/

theorem findSome_eq_first_matching (missing : List String) (questions : List Question) :
    missing.findSome? (fun m => questions.find? (fun q => symptom_matches m q))
      = first_matching_question missing questions := by
  induction missing with
  | nil => rfl
  | cons m ms ih =>
    rw [List.findSome?_cons]
    unfold first_matching_question
    cases hf : questions.find? (fun q => symptom_matches m q) with
    | some q =>
      have hany : questions.any (fun q => symptom_matches m q) = true := by
        rw [List.any_eq_true]
        exact ⟨q, List.mem_of_find?_eq_some hf, List.find?_some hf⟩
      have h1 : List.find? (fun m => questions.any (fun q => symptom_matches m q)) (m :: ms)
          = some m := List.find?_cons_of_pos ms hany
      rw [h1]
      exact hf.symm
    | none =>
      have hany : ¬ (questions.any (fun q => symptom_matches m q) = true) := by
        rw [List.any_eq_true]
        rintro ⟨q, hq_mem, hq⟩
        have := List.find?_eq_none.mp hf q hq_mem
        exact this hq
      have h2 : List.find? (fun m => questions.any (fun q => symptom_matches m q)) (m :: ms)
          = List.find? (fun m => questions.any (fun q => symptom_matches m q)) ms :=
        List.find?_cons_of_neg ms hany
      rw [h2]
      exact ih

/-- C4 counterexample: with missing symptoms `["abcd","wxyz"]` and questions
`["does wxyz hurt","any abcd today"]`, the code returns the *second*
question (the first one matching the first missing symptom), while the claim
("the first question whose text contains any word drawn from any missing
symptom") selects the first. -/
theorem pick_followup_order_cex :
    pick_followup ["abcd", "wxyz"]
        { name := "X", follow_up_questions := [⟨"does wxyz hurt"⟩, ⟨"any abcd today"⟩] }
      = some ⟨"any abcd today"⟩ ∧
    spec_pick_followup ["abcd", "wxyz"]
        { name := "X", follow_up_questions := [⟨"does wxyz hurt"⟩, ⟨"any abcd today"⟩] }
      = some ⟨"does wxyz hurt"⟩ ∧
    pick_followup ["abcd", "wxyz"]
        { name := "X", follow_up_questions := [⟨"does wxyz hurt"⟩, ⟨"any abcd today"⟩] }
      ≠ spec_pick_followup ["abcd", "wxyz"]
        { name := "X", follow_up_questions := [⟨"does wxyz hurt"⟩, ⟨"any abcd today"⟩] } :=
  ⟨by decide, by decide, by decide⟩

/-- C4 amended: no questions ⇒ absent; no missing symptoms ⇒ first question;
otherwise iterate the *missing symptoms* in order and, at the first missing
symptom some question matches, return the first question matching *that*
symptom; if no missing symptom matches any question, fall back to the first
question. -/
theorem pick_followup_characterization :
    ∀ (missing : List String) (c : ConditionRec),
      pick_followup missing c =
        if c.follow_up_questions.isEmpty then none
        else if missing.isEmpty then c.follow_up_questions.head?
        else
          match first_matching_question missing c.follow_up_questions with
          | some q => some q
          | none => c.follow_up_questions.head? := by
  intro missing c
  unfold pick_followup
  cases hq : c.follow_up_questions with
  | nil => rfl
  | cons q0 qs =>
    by_cases hm : missing.isEmpty
    · simp [hm]
    · simp only [hm, List.isEmpty_cons, Bool.false_eq_true, if_false, if_neg]
      rw [findSome_eq_first_matching]
      rfl

/-! ### Claim C5 — enrichment selection -/

theorem analyze_async_get (cc : CrossChecker) (user_text : String) (age : ℤ)
    (ch : List String) (ranked : List Candidate) (idx : Nat) :
    (analyze_async cc user_text age ch ranked).get? idx
      = ((ranked.take cc.top_k).get? idx).map
          (fun item => enrich_candidate cc user_text age ch idx item) := by
  unfold analyze_async
  rw [List.get?_map, List.enum_get?]
  cases (ranked.take cc.top_k).get? idx with
  | none => rfl
  | some item => rfl

theorem db_request_name_isSome_lt (cc : CrossChecker) (idx : Nat) (item : Candidate)
    (h : (db_request_name cc idx item).isSome = true) : idx < cc.top_m := by
  unfold db_request_name at h
  split at h
  · next hc => exact hc.2.1
  · simp at h

theorem countP_enumFrom_le {α : Type} (f : Nat × α → Bool) (m : Nat)
    (hf : ∀ p, f p = true → p.1 < m) :
    ∀ (n : Nat) (l : List α), (l.enumFrom n).countP f ≤ m - n := by
  intro n l
  induction l generalizing n with
  | nil => simp
  | cons x xs ih =>
    rw [show List.enumFrom n (x :: xs) = (n, x) :: List.enumFrom (n + 1) xs from rfl,
      List.countP_cons]
    by_cases h : f (n, x) = true
    · have hn := hf _ h
      have hr := ih (n + 1)
      rw [if_pos h]
      omega
    · have hr := ih (n + 1)
      rw [if_neg h]
      omega

/-- C5: with enrichment enabled, a candidate of the truncated list gets an
external lookup iff its index is below `top_m` and its final score is at
least `dbpedia_min_score`; an unselected candidate's `dbpedia` field in the
output is `none` (no lookup coroutine exists for it, hence no cache access);
and at most `top_m` lookup tasks are dispatched per request. -/
theorem enrichment_selection (cc : CrossChecker) (user_text : String) (age : ℤ)
    (ch : List String) (ranked : List Candidate)
    (henabled : cc.dbpedia.isSome = true) :
    (∀ (idx : Nat) (item : Candidate), (ranked.take cc.top_k).get? idx = some item →
       ((db_request_name cc idx item).isSome = true ↔
          (idx < cc.top_m ∧ cc.dbpedia_min_score ≤ item.final_score)) ∧
       (db_request_name cc idx item = none →
        ∀ out, (analyze_async cc user_text age ch ranked).get? idx = some out →
          out.dbpedia = none)) ∧
    db_dispatched cc ranked ≤ cc.top_m := by
  constructor
  · intro idx item hget
    constructor
    · constructor
      · intro h
        unfold db_request_name at h
        split at h
        · next hc => exact hc.2
        · simp at h
      · intro h
        unfold db_request_name
        rw [if_pos ⟨henabled, h.1, h.2⟩]
        rfl
    · intro hnone out hout
      rw [analyze_async_get, hget] at hout
      have hout2 : out = enrich_candidate cc user_text age ch idx item := by
        simpa using hout.symm
      subst hout2
      show db_result cc idx item = none
      unfold db_result
      rw [hnone]
      cases cc.dbpedia with
      | none => rfl
      | some oracle => rfl
  · unfold db_dispatched
    have := countP_enumFrom_le (fun p : Nat × Candidate => (db_request_name cc p.1 p.2).isSome)
      cc.top_m (fun p hp => db_request_name_isSome_lt cc p.1 p.2 hp) 0 (ranked.take cc.top_k)
    simpa using this

/-- Witness for C5, on a concrete checker, ranker output, and oracle: the
selection test for index 0 and the global dispatch bound. -/
theorem enrichment_selection_witness :
    ((db_request_name ccW 0 { name := "Flu", final_score := 9/10 }).isSome = true ↔
      (0 < ccW.top_m ∧ ccW.dbpedia_min_score ≤
        (Candidate.final_score { name := "Flu", final_score := 9/10 }))) ∧
    db_dispatched ccW rankedW ≤ ccW.top_m := by
  have h := enrichment_selection ccW "fever" 30 [] rankedW rfl
  exact ⟨(h.1 0 { name := "Flu", final_score := 9/10 } rfl).1, h.2⟩

/-! ### Claim C6 — per-lookup fault isolation -/

/-- C6: if one selected candidate's lookup coroutine raises while another's
returns `r`, the failed slot's `dbpedia` field degrades to
`{"matched": False}` and the other slot carries exactly `r` — one failure
neither cancels nor alters its siblings or the rest of the merge. -/
theorem lookup_fault_isolation (cc : CrossChecker) (user_text : String) (age : ℤ)
    (ch : List String) (ranked : List Candidate)
    (oracle : String → Except Unit LookupResult)
    (hdb : cc.dbpedia = some oracle)
    (i j : Nat) (item_i item_j : Candidate) (nm_i nm_j : String) (e : Unit) (r : LookupResult)
    (hi : (ranked.take cc.top_k).get? i = some item_i)
    (hj : (ranked.take cc.top_k).get? j = some item_j)
    (hri : db_request_name cc i item_i = some nm_i)
    (hrj : db_request_name cc j item_j = some nm_j)
    (hoi : oracle nm_i = Except.error e)
    (hoj : oracle nm_j = Except.ok r) :
    (analyze_async cc user_text age ch ranked).get? i
        = some (enrich_candidate cc user_text age ch i item_i) ∧
    (enrich_candidate cc user_text age ch i item_i).dbpedia = some { matched := false } ∧
    (analyze_async cc user_text age ch ranked).get? j
        = some (enrich_candidate cc user_text age ch j item_j) ∧
    (enrich_candidate cc user_text age ch j item_j).dbpedia = some r := by
  have hstep : ∀ (idx : Nat) (item : Candidate) (nm : String),
      db_request_name cc idx item = some nm →
      db_result cc idx item = (match oracle nm with
        | Except.ok r2 => some r2
        | Except.error _ => some { matched := false }) := by
    intro idx item nm hreq
    unfold db_result
    rw [hdb, hreq]
  refine ⟨?_, ?_, ?_, ?_⟩
  · rw [analyze_async_get, hi]
    rfl
  · show db_result cc i item_i = some { matched := false }
    rw [hstep i item_i nm_i hri, hoi]
  · rw [analyze_async_get, hj]
    rfl
  · show db_result cc j item_j = some r
    rw [hstep j item_j nm_j hrj, hoj]

/-- Witness for C6: with `dbpediaW` raising for `Influenza` and succeeding
for `Common cold`, the first slot degrades and the second is intact. -/
theorem lookup_fault_isolation_witness :
    (enrich_candidate ccW "fever" 30 [] 0 { name := "Flu", final_score := 9/10 }).dbpedia
        = some { matched := false } ∧
    (enrich_candidate ccW "fever" 30 [] 1 { name := "Common cold", final_score := 7/10 }).dbpedia
        = some { matched := true, resource := some "r", abstract := some "a",
                 labels := some ["l"] } := by
  have hri : db_request_name ccW 0 { name := "Flu", final_score := 9/10 }
      = some "Influenza" := by
    unfold db_request_name
    rw [if_pos ⟨rfl, by norm_num [ccW], by norm_num [ccW]⟩]
    rfl
  have hrj : db_request_name ccW 1 { name := "Common cold", final_score := 7/10 }
      = some "Common cold" := by
    unfold db_request_name
    rw [if_pos ⟨rfl, by norm_num [ccW], by norm_num [ccW]⟩]
    rfl
  have h := lookup_fault_isolation ccW "fever" 30 [] rankedW dbpediaW rfl 0 1
    { name := "Flu", final_score := 9/10 } { name := "Common cold", final_score := 7/10 }
    "Influenza" "Common cold" ()
    { matched := true, resource := some "r", abstract := some "a", labels := some ["l"] }
    rfl rfl hri hrj rfl rfl
  exact ⟨h.2.1, h.2.2.2⟩

/-! ### Claim C10 — canonical name for the external lookup -/

/-- C10: a candidate selected for enrichment that resolves to a KB record is
looked up under the record's canonical `name` (hence cached under
`lookup_key` of the canonical name, not of the alias); only a candidate with
no KB record is looked up under its own name. -/
theorem db_request_canonical (cc : CrossChecker) (idx : Nat) (item : Candidate)
    (henabled : cc.dbpedia.isSome = true) (hidx : idx < cc.top_m)
    (hscore : cc.dbpedia_min_score ≤ item.final_score) :
    (∀ c, lookup_kb cc item.name = some c →
       db_request_name cc idx item = some c.name) ∧
    (lookup_kb cc item.name = none →
       db_request_name cc idx item = some item.name) := by
  constructor
  · intro c hc
    unfold db_request_name
    rw [if_pos ⟨henabled, hidx, hscore⟩, hc]
  · intro hc
    unfold db_request_name
    rw [if_pos ⟨henabled, hidx, hscore⟩, hc]

/-- Witness for C10: the candidate named `Flu` (an alias) is looked up as
`Influenza`, the canonical KB name. -/
theorem db_request_canonical_witness :
    db_request_name ccW 0 { name := "Flu", final_score := 9/10 } = some "Influenza" := by
  have hkb : lookup_kb ccW "Flu"
      = some { name := "Influenza", aliases := ["flu"],
               common_symptoms := ["fever", "sore throat", "fatigue"],
               follow_up_questions := [⟨"Do you have a sore throat?"⟩],
               severity_score := 7/10, urgency := "urgent" } := rfl
  exact (db_request_canonical ccW 0 { name := "Flu", final_score := 9/10 }
    rfl (by norm_num [ccW]) (by norm_num [ccW])).1 _ hkb

/-! ### Claim C7 — `_read_cache` semantics -/

theorem read_cache_eq_none (svc : DBPediaSvc) (fs : FS) (now : ℚ) (key : String)
    (h : fs (cache_path key) = none) : read_cache svc fs now key = none := by
  unfold read_cache
  rw [h]

theorem read_cache_eq_corrupt (svc : DBPediaSvc) (fs : FS) (now : ℚ) (key : String)
    (h : fs (cache_path key) = some CacheFile.corrupt) : read_cache svc fs now key = none := by
  unfold read_cache
  rw [h]

theorem read_cache_eq_entry (svc : DBPediaSvc) (fs : FS) (now : ℚ) (key : String)
    (t : ℚ) (p : Option LookupResult)
    (h : fs (cache_path key) = some (CacheFile.entry t p)) :
    read_cache svc fs now key = if svc.cache_ttl < now - t then none else p := by
  unfold read_cache
  rw [h]

theorem write_cache_read_same (fs : FS) (t0 : ℚ) (key : String) (payload : LookupResult) :
    (write_cache fs t0 key payload) (cache_path key)
      = some (CacheFile.entry t0 (some payload)) := by
  simp [write_cache]

/-- C7: the cache read (a total function — every exception path of the
source returns `None`) yields a stored payload iff the file for the key's
hash exists, parses to an entry holding that payload, and `now - fetchedAt
<= ttl`; an absent file, corrupt content, or strictly stale entry are all
misses; and an entry written at `t0` is a hit at any `t <= t0 + ttl` and a
miss at any `t > t0 + ttl`. -/
theorem read_cache_spec :
    (∀ (svc : DBPediaSvc) (fs : FS) (now : ℚ) (key : String) (r : LookupResult),
       read_cache svc fs now key = some r ↔
         ∃ t, fs (cache_path key) = some (CacheFile.entry t (some r)) ∧
           now - t ≤ svc.cache_ttl) ∧
    (∀ (svc : DBPediaSvc) (fs : FS) (now : ℚ) (key : String),
       fs (cache_path key) = none → read_cache svc fs now key = none) ∧
    (∀ (svc : DBPediaSvc) (fs : FS) (now : ℚ) (key : String),
       fs (cache_path key) = some CacheFile.corrupt → read_cache svc fs now key = none) ∧
    (∀ (svc : DBPediaSvc) (fs : FS) (now t0 : ℚ) (key : String) (p : Option LookupResult),
       fs (cache_path key) = some (CacheFile.entry t0 p) → svc.cache_ttl < now - t0 →
       read_cache svc fs now key = none) ∧
    (∀ (svc : DBPediaSvc) (fs : FS) (t0 t : ℚ) (key : String) (payload : LookupResult),
       (t ≤ t0 + svc.cache_ttl →
         read_cache svc (write_cache fs t0 key payload) t key = some payload) ∧
       (t0 + svc.cache_ttl < t →
         read_cache svc (write_cache fs t0 key payload) t key = none)) := by
  refine ⟨?_, read_cache_eq_none, read_cache_eq_corrupt, ?_, ?_⟩
  · intro svc fs now key r
    constructor
    · intro h
      cases hfs : fs (cache_path key) with
      | none =>
        rw [read_cache_eq_none svc fs now key hfs] at h
        exact absurd h (by simp)
      | some cf =>
        cases cf with
        | corrupt =>
          rw [read_cache_eq_corrupt svc fs now key hfs] at h
          exact absurd h (by simp)
        | entry t p =>
          rw [read_cache_eq_entry svc fs now key t p hfs] at h
          by_cases hstale : svc.cache_ttl < now - t
          · rw [if_pos hstale] at h
            exact absurd h (by simp)
          · rw [if_neg hstale] at h
            refine ⟨t, ?_, not_lt.mp hstale⟩
            rw [h]
    · rintro ⟨t2, heq, hle⟩
      rw [read_cache_eq_entry svc fs now key t2 (some r) heq]
      rw [if_neg (not_lt.mpr hle)]
  · intro svc fs now t0 key p h hstale
    rw [read_cache_eq_entry svc fs now key t0 p h]
    exact if_pos hstale
  · intro svc fs t0 t key payload
    constructor
    · intro hfresh
      rw [read_cache_eq_entry svc (write_cache fs t0 key payload) t key t0 (some payload)
        (write_cache_read_same fs t0 key payload)]
      exact if_neg (not_lt.mpr (by linarith))
    · intro hstale
      rw [read_cache_eq_entry svc (write_cache fs t0 key payload) t key t0 (some payload)
        (write_cache_read_same fs t0 key payload)]
      exact if_pos (by linarith)

/-- Witness for C7: with `ttl = 100`, an entry written at `t0 = 0` is a hit
at `t = 50` and a miss at `t = 200`. -/
theorem read_cache_spec_witness :
    ((50 : ℚ) ≤ 0 + (100 : ℚ) ∧
      read_cache ⟨100⟩ (write_cache fsEmptyW 0 "k" { matched := false }) 50 "k"
        = some { matched := false }) ∧
    ((0 : ℚ) + 100 < 200 ∧
      read_cache ⟨100⟩ (write_cache fsEmptyW 0 "k" { matched := false }) 200 "k" = none) :=
  ⟨⟨by norm_num,
    (read_cache_spec.2.2.2.2 ⟨100⟩ fsEmptyW 0 50 "k" { matched := false }).1 (by norm_num)⟩,
   ⟨by norm_num,
    (read_cache_spec.2.2.2.2 ⟨100⟩ fsEmptyW 0 200 "k" { matched := false }).2 (by norm_num)⟩⟩

/-! ### Claims C8 / C9 — `lookup_abstract` -/

theorem lookup_abstract_cache_hit (svc : DBPediaSvc) (oracle : SparqlOracle) (fs : FS)
    (now : ℚ) (name : String) (r : LookupResult)
    (hname : ¬ name = "") (hhit : read_cache svc fs now (lookup_key name) = some r) :
    lookup_abstract svc oracle fs now name = ⟨r, fs, []⟩ := by
  unfold lookup_abstract
  rw [if_neg hname, hhit]

theorem lookup_abstract_unmatched_eq (svc : DBPediaSvc) (oracle : SparqlOracle) (fs : FS)
    (now : ℚ) (name : String)
    (hname : ¬ name = "")
    (hmiss : read_cache svc fs now (lookup_key name) = none)
    (hres : (lookup_abstract svc oracle fs now name).result = { matched := false }) :
    lookup_abstract svc oracle fs now name =
      ⟨{ matched := false }, write_cache fs now (lookup_key name) { matched := false },
       [Query.direct (direct_resource name), Query.labelSearch (safe_label_lower name)]⟩ := by
  unfold lookup_abstract at hres ⊢
  rw [if_neg hname, hmiss] at hres ⊢
  cases ho1 : oracle (Query.direct (direct_resource name)) with
  | some bs =>
    cases bs with
    | cons b tl =>
      rw [ho1] at hres
      simp [direct_hit] at hres
    | nil =>
      cases ho2 : oracle (Query.labelSearch (safe_label_lower name)) with
      | some bs2 =>
        cases bs2 with
        | cons b2 tl2 =>
          rw [ho1, ho2] at hres
          simp [label_hit] at hres
        | nil => rfl
      | none => rfl
  | none =>
    cases ho2 : oracle (Query.labelSearch (safe_label_lower name)) with
    | some bs2 =>
      cases bs2 with
      | cons b2 tl2 =>
        rw [ho1, ho2] at hres
        simp [label_hit] at hres
      | nil => rfl
    | none => rfl

/-- C8: a (non-cached) lookup concluding `{"matched": False}` persists that
result at the key's path with `fetchedAt = now` (and issued both remote
queries); any later lookup whose name normalizes to the same key, made
within TTL of the write, returns the cached `{"matched": False}` with no
remote call and an unchanged cache. -/
theorem negative_result_cached (svc : DBPediaSvc) (oracle : SparqlOracle) (fs : FS)
    (now : ℚ) (name : String)
    (hname : ¬ name = "")
    (hmiss : read_cache svc fs now (lookup_key name) = none)
    (hres : (lookup_abstract svc oracle fs now name).result = { matched := false }) :
    (lookup_abstract svc oracle fs now name).fs
        = write_cache fs now (lookup_key name) { matched := false } ∧
    (∀ (name2 : String) (now2 : ℚ) (oracle2 : SparqlOracle),
       ¬ name2 = "" → lookup_key name2 = lookup_key name → now2 - now ≤ svc.cache_ttl →
       lookup_abstract svc oracle2 ((lookup_abstract svc oracle fs now name).fs) now2 name2
         = ⟨{ matched := false }, (lookup_abstract svc oracle fs now name).fs, []⟩) := by
  have heq := lookup_abstract_unmatched_eq svc oracle fs now name hname hmiss hres
  constructor
  · rw [heq]
  · intro name2 now2 oracle2 hn2 hk2 hfresh
    rw [heq]
    apply lookup_abstract_cache_hit
    · exact hn2
    · rw [hk2]
      rw [read_cache_eq_entry svc _ now2 (lookup_key name) now (some { matched := false })
        (write_cache_read_same fs now (lookup_key name) { matched := false })]
      exact if_neg (not_lt.mpr hfresh)

/-- Witness for C8: with an always-failing transport, a lookup for `Zzz` at
time 0 caches `{"matched": False}`, and a lookup for `" ZZZ "` (same
normalized key) at time 50 under TTL 100 is served from the cache with no
remote call. -/
theorem negative_result_cached_witness :
    lookup_abstract ⟨100⟩ oracleFailW
        ((lookup_abstract ⟨100⟩ oracleFailW fsEmptyW 0 "Zzz").fs) 50 " ZZZ "
      = ⟨{ matched := false }, (lookup_abstract ⟨100⟩ oracleFailW fsEmptyW 0 "Zzz").fs, []⟩ :=
  (negative_result_cached ⟨100⟩ oracleFailW fsEmptyW 0 "Zzz" (by decide) rfl rfl).2
    " ZZZ " 50 oracleFailW (by decide) (by decide) (by norm_num)

/-- C9: `lookup_abstract` is total in the model — `_sparql` maps every
network/HTTP/parse failure to `None` — and when the name is empty, or when
(on a cache miss) neither the direct query nor the label fallback yields
bindings, the result is `{"matched": False}` (and, on the miss path, that
negative result is what gets written to the cache). -/
theorem lookup_abstract_never_raises (svc : DBPediaSvc) (oracle : SparqlOracle) (fs : FS)
    (now : ℚ) (name : String) :
    (name = "" → lookup_abstract svc oracle fs now name = ⟨{ matched := false }, fs, []⟩) ∧
    (¬ name = "" →
     read_cache svc fs now (lookup_key name) = none →
     (oracle (Query.direct (direct_resource name)) = none ∨
        oracle (Query.direct (direct_resource name)) = some []) →
     (oracle (Query.labelSearch (safe_label_lower name)) = none ∨
        oracle (Query.labelSearch (safe_label_lower name)) = some []) →
     (lookup_abstract svc oracle fs now name).result = { matched := false } ∧
     (lookup_abstract svc oracle fs now name).fs
        = write_cache fs now (lookup_key name) { matched := false }) := by
  constructor
  · intro h
    unfold lookup_abstract
    rw [if_pos h]
  · intro hname hmiss h1 h2
    unfold lookup_abstract
    rw [if_neg hname, hmiss]
    rcases h1 with h1 | h1 <;> rcases h2 with h2 | h2 <;> rw [h1, h2] <;> exact ⟨rfl, rfl⟩

/-- Witness for C9: an all-failing transport on an empty cache yields
`{"matched": False}` for `Measles`, written to the cache. -/
theorem lookup_abstract_never_raises_witness :
    (lookup_abstract ⟨100⟩ oracleFailW fsEmptyW 0 "Measles").result = { matched := false } ∧
    (lookup_abstract ⟨100⟩ oracleFailW fsEmptyW 0 "Measles").fs
      = write_cache fsEmptyW 0 (lookup_key "Measles") { matched := false } :=
  (lookup_abstract_never_raises ⟨100⟩ oracleFailW fsEmptyW 0 "Measles").2
    (by decide) rfl (Or.inl rfl) (Or.inl rfl)
